import Mathlib

/-!
Verification of the GoQuant trade-simulator core against its specification.

The C++ sources are shallowly embedded: `double` becomes `ℝ` (exact real
arithmetic, with Lean's total-division convention `x / 0 = 0`), `int`
becomes `ℤ`, `size_t` becomes `ℕ`, `std::vector`/`std::deque` become
`List`, and code that throws becomes `Except`/`Option`.  Each definition
mirrors one function of the repository; the file then proves or refutes
the frozen claims about those functions.
-/

set_option maxHeartbeats 1000000

/-- Derived statistics of one order-book snapshot
(struct `OrderbookStats` in `include/data/orderbook_types.h`).
The `processing_latency` performance field is omitted: it is wall-clock
data, not used by any model function. -/
structure OrderbookStats where
  midprice : ℝ := 0
  spread : ℝ := 0
  best_ask : ℝ := 0
  best_bid : ℝ := 0
  weighted_ask_price : ℝ := 0
  weighted_bid_price : ℝ := 0
  total_ask_size : ℝ := 0
  total_bid_size : ℝ := 0
  order_imbalance : ℝ := 0
  price_volatility : ℝ := 0

/-- Fee model (struct `FeeModel` in `models/transaction_cost.h`). -/
structure FeeModel where
  makerFeeRate : ℝ := 0.0002
  takerFeeRate : ℝ := 0.0005
  feeTier : ℤ := 0

/-- Parameters of the Almgren-Chriss impact model
(struct `AlmgrenChrissParams` in `models/market_impact.h`). -/
structure AlmgrenChrissParams where
  permanentImpactFactor : ℝ := 0.1
  temporaryImpactFactor : ℝ := 0.1
  volatility : ℝ := 0
  timeHorizon : ℝ := 1
  riskAversion : ℝ := 1

/-- Behaviour of `std::clamp(v, lo, hi)`:
`v < lo ? lo : (hi < v ? hi : v)`. -/
noncomputable def stdClamp (v lo hi : ℝ) : ℝ :=
  if v < lo then lo else if hi < v then hi else v

/-- Regression coefficients of the slippage model, private fields of
`TransactionCostModel` in `models/transaction_cost.h`:
intercept 0.0, volume factor 0.1, volatility factor 0.2,
imbalance factor -0.05. -/
noncomputable def slippageIntercept : ℝ := 0
noncomputable def slippageVolumeFactor : ℝ := 0.1
noncomputable def slippageVolatilityFactor : ℝ := 0.2
noncomputable def slippageImbalanceFactor : ℝ := -0.05

/-- Embedding of `TransactionCostModel::calculateSlippage`
(`src/unnamed/part_002`, lines 23-55): a linear regression estimate in
relative terms, converted to price units by the mid-price and floored at
half the spread. -/
noncomputable def calculateSlippage (orderSize : ℝ) (orderSide : Bool)
    (stats : OrderbookStats) : ℝ :=
  let relativeSizeToDepth : ℝ :=
    if orderSide then
      (if stats.total_ask_size > 0 then orderSize / stats.total_ask_size else 0)
    else
      (if stats.total_bid_size > 0 then orderSize / stats.total_bid_size else 0)
  let slippageEstimate :=
    slippageIntercept + slippageVolumeFactor * relativeSizeToDepth +
      slippageVolatilityFactor * stats.price_volatility +
      slippageImbalanceFactor * (stats.order_imbalance - 1)
  let priceSlippage := slippageEstimate * stats.midprice
  let minSlippage := stats.spread / 2
  max priceSlippage minSlippage

/-- Embedding of `TransactionCostModel::calculateFees`
(`src/unnamed/part_002`, lines 57-74): the maker proportion is clamped to
[0, 1], then the fee is the notional split between maker and taker
rates. -/
noncomputable def calculateFees (fm : FeeModel) (orderSize orderPrice makerProportion : ℝ) : ℝ :=
  let m := stdClamp makerProportion 0 1
  let takerProportion := 1 - m
  let notionalValue := orderSize * orderPrice
  let makerFee := notionalValue * m * fm.makerFeeRate
  let takerFee := notionalValue * takerProportion * fm.takerFeeRate
  makerFee + takerFee

lemma calculateFees_eq (fm : FeeModel) (orderSize orderPrice m : ℝ) :
    calculateFees fm orderSize orderPrice m =
      orderSize * orderPrice * stdClamp m 0 1 * fm.makerFeeRate +
        orderSize * orderPrice * (1 - stdClamp m 0 1) * fm.takerFeeRate := rfl

lemma stdClamp_mem_Icc (v lo hi : ℝ) (h : lo ≤ hi) :
    lo ≤ stdClamp v lo hi ∧ stdClamp v lo hi ≤ hi := by
  unfold stdClamp
  split_ifs with h1 h2 <;> constructor <;> linarith

lemma stdClamp_idem (v : ℝ) :
    stdClamp (stdClamp v 0 1) 0 1 = stdClamp v 0 1 := by
  unfold stdClamp
  split_ifs <;> linarith

/-- C2: for every order size, side, and stats value with `spread > 0`,
`calculateSlippage` returns at least half of `stats.spread` (the result is
the maximum of the regression estimate and the half-spread floor). -/
theorem calculateSlippage_ge_half_spread
    (orderSize : ℝ) (orderSide : Bool) (stats : OrderbookStats)
    (hspread : 0 < stats.spread) :
    stats.spread / 2 ≤ calculateSlippage orderSize orderSide stats := by
  unfold calculateSlippage
  exact le_max_right _ _

/-- Witness for C2 at a concrete input: spread 1, slippage bounded below
by 1/2. -/
theorem calculateSlippage_ge_half_spread_witness :
    (0 : ℝ) < (1 : ℝ) ∧
      (1 : ℝ) / 2 ≤ calculateSlippage 5 true { spread := 1 } := by
  refine ⟨by norm_num, ?_⟩
  exact calculateSlippage_ge_half_spread 5 true { spread := 1 } (by norm_num)

/-- C9: `calculateFees` clamps the maker proportion into [0, 1] before
computing the fee, so `calculateFees size price m` equals
`calculateFees size price (clamp m 0 1)` for every `m`, and the result
always lies between the pure-taker fee (`m = 0`) and the pure-maker fee
(`m = 1`). -/
theorem calculateFees_clamps_makerProportion
    (fm : FeeModel) (orderSize orderPrice m : ℝ) :
    calculateFees fm orderSize orderPrice m =
        calculateFees fm orderSize orderPrice (stdClamp m 0 1) ∧
      min (calculateFees fm orderSize orderPrice 0)
          (calculateFees fm orderSize orderPrice 1) ≤
        calculateFees fm orderSize orderPrice m ∧
      calculateFees fm orderSize orderPrice m ≤
        max (calculateFees fm orderSize orderPrice 0)
          (calculateFees fm orderSize orderPrice 1) := by
  have hc0 : stdClamp 0 0 1 = (0 : ℝ) := by norm_num [stdClamp]
  have hc1 : stdClamp 1 0 1 = (1 : ℝ) := by norm_num [stdClamp]
  have hmem := stdClamp_mem_Icc m 0 1 (by norm_num)
  refine ⟨?_, ?_, ?_⟩
  · rw [calculateFees_eq, calculateFees_eq, stdClamp_idem]
  · simp only [calculateFees_eq, hc0, hc1]
    rw [min_def]
    split_ifs <;> nlinarith [hmem.1, hmem.2]
  · simp only [calculateFees_eq, hc0, hc1]
    rw [max_def]
    split_ifs <;> nlinarith [hmem.1, hmem.2]

/-- Input parameters of the simulator
(struct `SimulatorParams` in `src/unnamed/part_003`). -/
structure SimulatorParams where
  exchange : String := "OKX"
  symbol : String := "BTC-USDT"
  orderType : String := "market"
  quantity : ℝ := 100
  volatility : ℝ := 0
  feeTier : ℤ := 0

/-- Mutable state of `Simulator` that `updateParams` touches: the stored
parameters, the impact-model parameters, and the fee model
(`src/src/models/simulator.cpp`). -/
structure SimState where
  params : SimulatorParams
  impactParams : AlmgrenChrissParams
  feeModel : FeeModel

/-- Embedding of `Simulator::updateParams`
(`src/src/models/simulator.cpp`, lines 45-79): stores the new parameters,
pushes the volatility into the impact model, replaces the fee tier, and
assigns tier rates only for tiers 0, 1, 2 and >= 3. -/
noncomputable def updateParams (s : SimState) (p : SimulatorParams) : SimState :=
  let impactParams := { s.impactParams with volatility := p.volatility }
  let fm0 := { s.feeModel with feeTier := p.feeTier }
  let feeModel :=
    if p.feeTier = 0 then
      { fm0 with makerFeeRate := 0.0002, takerFeeRate := 0.0005 }
    else if p.feeTier = 1 then
      { fm0 with makerFeeRate := 0.00015, takerFeeRate := 0.0004 }
    else if p.feeTier = 2 then
      { fm0 with makerFeeRate := 0.0001, takerFeeRate := 0.0003 }
    else if p.feeTier ≥ 3 then
      { fm0 with makerFeeRate := 0.00005, takerFeeRate := 0.0002 }
    else
      fm0
  { params := p, impactParams := impactParams, feeModel := feeModel }

/-- C10: `updateParams` with a negative `feeTier` replaces the stored
parameters and the fee model's tier identifier but leaves the maker and
taker fee rates untouched; any `feeTier` in {0, 1, 2} or >= 3 assigns the
rates of the tier table, overwriting the old rates. -/
theorem updateParams_negative_feeTier_keeps_rates
    (s : SimState) (p : SimulatorParams) (hneg : p.feeTier < 0) :
    (updateParams s p).params = p ∧
      (updateParams s p).feeModel.feeTier = p.feeTier ∧
      (updateParams s p).feeModel.makerFeeRate = s.feeModel.makerFeeRate ∧
      (updateParams s p).feeModel.takerFeeRate = s.feeModel.takerFeeRate := by
  have h0 : ¬ p.feeTier = 0 := by omega
  have h1 : ¬ p.feeTier = 1 := by omega
  have h2 : ¬ p.feeTier = 2 := by omega
  have h3 : ¬ p.feeTier ≥ 3 := by omega
  simp [updateParams, h0, h1, h2, h3]

/-- Witness for C10 at a concrete input: tier -1 leaves the default rates
of the previous fee model in place while the tier identifier changes. -/
theorem updateParams_negative_feeTier_keeps_rates_witness :
    ((-1 : ℤ) < 0) ∧
      ((updateParams
          { params := {}, impactParams := {}, feeModel := {} }
          { feeTier := -1 }).params = { feeTier := -1 } ∧
        (updateParams
          { params := {}, impactParams := {}, feeModel := {} }
          { feeTier := -1 }).feeModel.feeTier = ({ feeTier := -1 } : SimulatorParams).feeTier ∧
        (updateParams
          { params := {}, impactParams := {}, feeModel := {} }
          { feeTier := -1 }).feeModel.makerFeeRate =
          ({ params := {}, impactParams := {}, feeModel := {} } : SimState).feeModel.makerFeeRate ∧
        (updateParams
          { params := {}, impactParams := {}, feeModel := {} }
          { feeTier := -1 }).feeModel.takerFeeRate =
          ({ params := {}, impactParams := {}, feeModel := {} } : SimState).feeModel.takerFeeRate) :=
  ⟨by decide,
    updateParams_negative_feeTier_keeps_rates
      { params := {}, impactParams := {}, feeModel := {} }
      { feeTier := -1 } (by decide)⟩

/-- Initial reconnect delay of the feed client, in milliseconds
(`kReconnectInitialDelayMs` in `data/websocket_client.h`). -/
def kReconnectInitialDelayMs : ℕ := 1000

/-- Maximum reconnect delay of the feed client, in milliseconds
(`kReconnectMaxDelayMs` in `data/websocket_client.h`). -/
def kReconnectMaxDelayMs : ℕ := 60000

/-- Connection-management state of `WebSocketClient` that `start`,
`reconnect` and message receipt touch
(`src/src/data/websocket_client.cpp`). -/
structure WSState where
  shouldRun : Bool := false
  isConnected : Bool := false
  reconnectDelayMs : ℕ := kReconnectInitialDelayMs
  lastMessageTime : ℕ := 0

/-- Embedding of `WebSocketClient::start`
(`src/src/data/websocket_client.cpp`, lines 30-44): a no-op when already
running, otherwise sets the run flag and resets the reconnect delay to
the initial value. -/
def wsStart (s : WSState) : WSState :=
  if s.shouldRun then s
  else { s with shouldRun := true, reconnectDelayMs := kReconnectInitialDelayMs }

/-- Embedding of `WebSocketClient::reconnect`
(`src/src/data/websocket_client.cpp`, lines 233-243): returns the delay
slept before this reconnection attempt together with the updated state,
which doubles the delay and caps it at the maximum. -/
def wsReconnect (s : WSState) : ℕ × WSState :=
  (s.reconnectDelayMs,
    { s with isConnected := false,
             reconnectDelayMs := min (s.reconnectDelayMs * 2) kReconnectMaxDelayMs })

/-- Receipt of a raw message only refreshes the idle-health clock
(`src/src/data/websocket_client.cpp`, lines 149-153); it never touches the
reconnect delay. -/
def wsOnMessage (s : WSState) (now : ℕ) : WSState :=
  { s with lastMessageTime := now }

/-- State after `n` consecutive reconnections from state `s`. -/
def wsReconnectIter (s : WSState) : ℕ → WSState
  | 0 => s
  | n + 1 => (wsReconnect (wsReconnectIter s n)).2

/-- Delay slept before the k-th (1-based) consecutive reconnection attempt
starting from state `s`. -/
def nthBackoffDelay (s : WSState) (k : ℕ) : ℕ :=
  (wsReconnect (wsReconnectIter s (k - 1))).1

lemma wsReconnectIter_delay (s : WSState) (h : s.reconnectDelayMs = kReconnectInitialDelayMs) :
    ∀ n, (wsReconnectIter s n).reconnectDelayMs =
      min (1000 * 2 ^ n) 60000 := by
  intro n
  induction n with
  | zero => simpa [wsReconnectIter, kReconnectInitialDelayMs] using h
  | succ n ih =>
    have h2 : (2 : ℕ) ^ (n + 1) = 2 ^ n * 2 := by ring
    simp only [wsReconnectIter, wsReconnect, ih, kReconnectMaxDelayMs, h2]
    omega

/-- C5: after a successful `start` (one that actually transitions from the
stopped state), the delay slept before the k-th consecutive reconnection
attempt is exactly `min (1000 * 2^(k-1)) 60000` milliseconds, and receiving
a message never changes the reconnect delay. -/
theorem backoff_delay_sequence (s : WSState) (k : ℕ)
    (hstopped : s.shouldRun = false) (hk : 1 ≤ k) :
    nthBackoffDelay (wsStart s) k = min (1000 * 2 ^ (k - 1)) 60000 ∧
      ∀ (s' : WSState) (now : ℕ),
        (wsOnMessage s' now).reconnectDelayMs = s'.reconnectDelayMs := by
  constructor
  · have hrun : wsStart s =
        { s with shouldRun := true, reconnectDelayMs := kReconnectInitialDelayMs } := by
      unfold wsStart
      rw [hstopped]
      simp
    unfold nthBackoffDelay wsReconnect
    rw [hrun, wsReconnectIter_delay _ rfl (k - 1)]
  · intro s' now
    rfl

/-- Witness for C5 at a concrete input: from a stopped client, the 8th
consecutive backoff delay is capped at 60000 ms (1000 * 2^7 = 128000 would
exceed the cap). -/
theorem backoff_delay_sequence_witness :
    (({} : WSState).shouldRun = false ∧ 1 ≤ 8) ∧
      (nthBackoffDelay (wsStart {}) 8 = min (1000 * 2 ^ 7) 60000 ∧
        ∀ (s' : WSState) (now : ℕ),
          (wsOnMessage s' now).reconnectDelayMs = s'.reconnectDelayMs) :=
  ⟨⟨rfl, by decide⟩, backoff_delay_sequence {} 8 rfl (by decide)⟩

/-- Parsed order-book snapshot
(struct `OrderbookData` in `include/data/orderbook_types.h`); prices and
sizes are rationals, the `received_time` wall-clock field is omitted. -/
structure OrderbookData where
  timestamp : String := ""
  exchange : String := ""
  symbol : String := ""
  asks : List (ℚ × ℚ) := []
  bids : List (ℚ × ℚ) := []
  deriving DecidableEq

/-- Embedding of the eviction loop of `OrderbookProcessor::updateHistory`
(`src/src/data/orderbook_processor.cpp`, lines 174-177):
`while (size > N) pop_front()`. -/
def popExcess (N : ℕ) : List OrderbookData → List OrderbookData
  | [] => []
  | x :: xs => if N < xs.length + 1 then popExcess N xs else x :: xs

/-- Embedding of `OrderbookProcessor::updateHistory`
(`src/src/data/orderbook_processor.cpp`, lines 168-178): push the snapshot
at the back, then pop from the front while the window size is exceeded. -/
def updateHistory (N : ℕ) (history : List OrderbookData) (d : OrderbookData) :
    List OrderbookData :=
  popExcess N (history ++ [d])

lemma popExcess_eq_drop (N : ℕ) (l : List OrderbookData) :
    popExcess N l = l.drop (l.length - N) := by
  induction l with
  | nil => simp [popExcess]
  | cons x xs ih =>
    by_cases h : N < xs.length + 1
    · rw [popExcess, if_pos h, ih]
      have hlen : (x :: xs).length - N = (xs.length - N) + 1 := by
        simp only [List.length_cons]
        omega
      rw [hlen, List.drop_succ_cons]
    · rw [popExcess, if_neg h]
      have hlen : (x :: xs).length - N = 0 := by
        simp only [List.length_cons]
        omega
      rw [hlen, List.drop_zero]

lemma updateHistory_eq_drop (N : ℕ) (history : List OrderbookData)
    (d : OrderbookData) :
    updateHistory N history d =
      (history ++ [d]).drop (history.length + 1 - N) := by
  rw [updateHistory, popExcess_eq_drop]
  simp

lemma updateHistory_length_le (N : ℕ) (history : List OrderbookData)
    (d : OrderbookData) : (updateHistory N history d).length ≤ N := by
  rw [updateHistory_eq_drop, List.length_drop]
  simp only [List.length_append, List.length_cons, List.length_nil]
  omega

lemma foldl_updateHistory (N : ℕ) :
    ∀ (xs acc : List OrderbookData), acc.length ≤ N →
      xs.foldl (updateHistory N) acc =
        (acc ++ xs).drop (acc.length + xs.length - N) := by
  intro xs
  induction xs with
  | nil =>
    intro acc hacc
    simp only [List.foldl_nil, List.append_nil, List.length_nil, Nat.add_zero]
    rw [show acc.length - N = 0 by omega, List.drop_zero]
  | cons x xs ih =>
    intro acc hacc
    have hk : acc.length + 1 - N ≤ (acc ++ [x]).length := by
      simp only [List.length_append, List.length_cons, List.length_nil]
      omega
    have harr : (acc ++ [x]) ++ xs = acc ++ x :: xs := by
      rw [List.append_assoc, List.singleton_append]
    rw [List.foldl_cons, ih _ (updateHistory_length_le N acc x),
      updateHistory_eq_drop, List.length_drop,
      ← List.drop_append_of_le_length hk, List.drop_drop, harr]
    congr 1
    simp only [List.length_append, List.length_cons, List.length_nil]
    omega

/-- C4: folding any sequence of snapshots through `updateHistory` starting
from the empty history keeps the history length at most the window size N
and leaves exactly the last `min(n, N)` snapshots, in processing order
(strict FIFO eviction). -/
theorem history_bounded_fifo (N : ℕ) (xs : List OrderbookData) :
    (xs.foldl (updateHistory N) []).length ≤ N ∧
      xs.foldl (updateHistory N) [] = xs.drop (xs.length - N) := by
  have h := foldl_updateHistory N xs [] (by simp)
  simp only [List.nil_append, List.length_nil, Nat.zero_add] at h
  refine ⟨?_, h⟩
  rw [h, List.length_drop]
  omega

/-- Embedding of `OrderbookProcessor::calculateVWAP`
(`src/src/data/orderbook_processor.cpp`, lines 143-166): volume-weighted
average of the first `min(maxLevels, size)` levels (`maxLevels = 0` means
all levels); 0 for an empty list or when the accumulated volume is not
positive. -/
def calculateVWAP (priceLevels : List (ℚ × ℚ)) (maxLevels : ℕ) : ℚ :=
  if priceLevels.isEmpty then 0
  else
    let levelsToUse :=
      if 0 < maxLevels then min maxLevels priceLevels.length
      else priceLevels.length
    let used := priceLevels.take levelsToUse
    let priceSum := (used.map (fun lv => lv.1 * lv.2)).sum
    let volumeSum := (used.map (fun lv => lv.2)).sum
    if 0 < volumeSum then priceSum / volumeSum else 0

lemma sum_map_snd_of_const {l : List (ℚ × ℚ)} {s : ℚ}
    (h : ∀ lv ∈ l, lv.2 = s) :
    (l.map (fun lv => lv.2)).sum = l.length * s := by
  induction l with
  | nil => simp
  | cons x xs ih =>
    simp only [List.map_cons, List.sum_cons, List.length_cons]
    rw [h x (List.mem_cons_self x xs), ih (fun lv hlv => h lv (List.mem_cons_of_mem x hlv))]
    push_cast
    ring

lemma sum_map_mul_snd_of_const {l : List (ℚ × ℚ)} {s : ℚ}
    (h : ∀ lv ∈ l, lv.2 = s) :
    (l.map (fun lv => lv.1 * lv.2)).sum = s * (l.map Prod.fst).sum := by
  induction l with
  | nil => simp
  | cons x xs ih =>
    simp only [List.map_cons, List.sum_cons]
    rw [h x (List.mem_cons_self x xs), ih (fun lv hlv => h lv (List.mem_cons_of_mem x hlv))]
    ring

/-- C8 counterexample: two levels with equal sizes (both 0) have VWAP 0
while the arithmetic mean of the prices is 3/2, so "VWAP of K levels with
equal sizes equals the arithmetic mean of those K prices" fails as stated
when the common size is 0. -/
theorem calculateVWAP_equal_zero_sizes_not_mean :
    calculateVWAP [(1, 0), (2, 0)] 10 = 0 ∧
      (((1 : ℚ) + 2) / 2 : ℚ) ≠ 0 := by
  constructor
  · norm_num [calculateVWAP]
  · norm_num

/-- C8 (amended): for levels with nonnegative sizes, `calculateVWAP` with
`maxLevels = 10` equals sum(price*size)/sum(size) over the first
`min(10, length)` levels; it returns 0 for an empty list and 0 when the
total used size is 0; and when all used levels share one positive size it
equals the arithmetic mean of the used prices. -/
theorem calculateVWAP_spec (levels : List (ℚ × ℚ))
    (hsz : ∀ lv ∈ levels, 0 ≤ lv.2) :
    calculateVWAP levels 10 =
        ((levels.take (min 10 levels.length)).map (fun lv => lv.1 * lv.2)).sum /
          ((levels.take (min 10 levels.length)).map (fun lv => lv.2)).sum ∧
      calculateVWAP [] 10 = 0 ∧
      (((levels.take (min 10 levels.length)).map (fun lv => lv.2)).sum = 0 →
        calculateVWAP levels 10 = 0) ∧
      ∀ s : ℚ, 0 < s →
        (∀ lv ∈ levels.take (min 10 levels.length), lv.2 = s) →
        calculateVWAP levels 10 =
          ((levels.take (min 10 levels.length)).map Prod.fst).sum /
            (levels.take (min 10 levels.length)).length := by
  have hvol_nonneg :
      0 ≤ ((levels.take (min 10 levels.length)).map (fun lv => lv.2)).sum := by
    apply List.sum_nonneg
    intro x hx
    rcases List.mem_map.mp hx with ⟨lv, hlv, rfl⟩
    exact hsz lv (List.take_subset _ _ hlv)
  have hmain : calculateVWAP levels 10 =
      ((levels.take (min 10 levels.length)).map (fun lv => lv.1 * lv.2)).sum /
        ((levels.take (min 10 levels.length)).map (fun lv => lv.2)).sum := by
    cases levels with
    | nil => simp [calculateVWAP]
    | cons a l =>
      rw [calculateVWAP]
      simp only [List.isEmpty_cons, Bool.false_eq_true, if_false]
      have h10 : (0 : ℕ) < 10 := by norm_num
      simp only [h10, if_true]
      by_cases hv :
          0 < (((a :: l).take (min 10 (a :: l).length)).map (fun lv => lv.2)).sum
      · rw [if_pos hv]
      · rw [if_neg hv]
        have h0 : (((a :: l).take (min 10 (a :: l).length)).map
            (fun lv => lv.2)).sum = 0 := le_antisymm (not_lt.mp hv) hvol_nonneg
        rw [h0, div_zero]
  refine ⟨hmain, by simp [calculateVWAP], ?_, ?_⟩
  · intro h0
    rw [hmain, h0, div_zero]
  · intro s hs hall
    rw [hmain, sum_map_snd_of_const hall, sum_map_mul_snd_of_const hall]
    rcases List.eq_nil_or_concat (levels.take (min 10 levels.length)) with hnil | ⟨_, _, hne⟩
    · rw [hnil]
      simp
    · have hlen : 0 < (levels.take (min 10 levels.length)).length := by
        rw [hne]
        simp
      rw [mul_comm ((levels.take (min 10 levels.length)).length : ℚ) s,
        mul_div_mul_left _ _ (ne_of_gt hs)]

/-- Witness for C8 (amended) at a concrete input: levels [(1,2),(3,2)]
with common positive size 2 give VWAP (1*2+3*2)/(2+2) = 2, the mean of
the prices. -/
theorem calculateVWAP_spec_witness :
    (∀ lv ∈ ([(1, 2), (3, 2)] : List (ℚ × ℚ)), 0 ≤ lv.2) ∧
      (calculateVWAP [(1, 2), (3, 2)] 10 =
          ((([(1, 2), (3, 2)] : List (ℚ × ℚ)).take
              (min 10 ([(1, 2), (3, 2)] : List (ℚ × ℚ)).length)).map
            (fun lv => lv.1 * lv.2)).sum /
            ((([(1, 2), (3, 2)] : List (ℚ × ℚ)).take
                (min 10 ([(1, 2), (3, 2)] : List (ℚ × ℚ)).length)).map
              (fun lv => lv.2)).sum ∧
        calculateVWAP [] 10 = 0 ∧
        (((([(1, 2), (3, 2)] : List (ℚ × ℚ)).take
              (min 10 ([(1, 2), (3, 2)] : List (ℚ × ℚ)).length)).map
            (fun lv => lv.2)).sum = 0 →
          calculateVWAP [(1, 2), (3, 2)] 10 = 0) ∧
        ∀ s : ℚ, 0 < s →
          (∀ lv ∈ ([(1, 2), (3, 2)] : List (ℚ × ℚ)).take
              (min 10 ([(1, 2), (3, 2)] : List (ℚ × ℚ)).length), lv.2 = s) →
          calculateVWAP [(1, 2), (3, 2)] 10 =
            ((([(1, 2), (3, 2)] : List (ℚ × ℚ)).take
                (min 10 ([(1, 2), (3, 2)] : List (ℚ × ℚ)).length)).map
              Prod.fst).sum /
              (([(1, 2), (3, 2)] : List (ℚ × ℚ)).take
                (min 10 ([(1, 2), (3, 2)] : List (ℚ × ℚ)).length)).length) :=
  ⟨by norm_num, calculateVWAP_spec [(1, 2), (3, 2)] (by norm_num)⟩

/-- Numeric value of a list of decimal digit characters. -/
def digitsToNat (ds : List Char) : ℕ :=
  ds.foldl (fun acc c => acc * 10 + (c.toNat - '0'.toNat)) 0

/-- Model of `std::stod` for the decimal numeric strings of the feed:
optional leading whitespace and sign, then decimal digits with an optional
fractional part; `none` when no digit can be consumed, which is the case
in which `std::stod` throws `std::invalid_argument`.  Exponent and
hexadecimal forms are not modelled; trailing characters are ignored as in
`std::stod`. -/
def stodParse (s : String) : Option ℚ :=
  let cs := s.data.dropWhile Char.isWhitespace
  let signAndRest : ℚ × List Char :=
    match cs with
    | '+' :: rest => (1, rest)
    | '-' :: rest => (-1, rest)
    | _ => (1, cs)
  let intDigits := signAndRest.2.takeWhile Char.isDigit
  let afterInt := signAndRest.2.dropWhile Char.isDigit
  let fracDigits :=
    match afterInt with
    | '.' :: rest => rest.takeWhile Char.isDigit
    | _ => []
  if intDigits.isEmpty && fracDigits.isEmpty then none
  else
    some (signAndRest.1 * ((digitsToNat intDigits : ℚ) +
      (digitsToNat fracDigits : ℚ) / 10 ^ fracDigits.length))

/-- Processing of one `ask`/`bid` JSON entry inside
`WebSocketClient::parseOrderbookData`
(`src/src/data/websocket_client.cpp`, lines 213-228): entries with fewer
than two elements are skipped silently (`none`), otherwise both strings
must convert (`std::stod` throwing becomes `Except.error`). -/
def parseLevel (e : List String) : Except String (Option (ℚ × ℚ)) :=
  match e with
  | p :: s :: _ =>
    match stodParse p, stodParse s with
    | some pv, some sv => Except.ok (some (pv, sv))
    | _, _ => Except.error "stod: no conversion"
  | _ => Except.ok none

/-- Processing of one full `asks`/`bids` array, accumulating the parsed
levels; a thrown conversion error aborts the whole parse. -/
def parseLevels : List (List String) → Except String (List (ℚ × ℚ))
  | [] => Except.ok []
  | e :: rest =>
    match parseLevel e with
    | Except.error msg => Except.error msg
    | Except.ok lv =>
      match parseLevels rest with
      | Except.error msg => Except.error msg
      | Except.ok rs =>
        match lv with
        | some x => Except.ok (x :: rs)
        | none => Except.ok rs

/-- Inbound wire message after JSON parsing: each required field is
present (`some`) or missing (`none`); `asks`/`bids` entries are arrays of
strings as on the wire. -/
structure RawMessage where
  timestamp : Option String := none
  exchange : Option String := none
  symbol : Option String := none
  asks : Option (List (List String)) := none
  bids : Option (List (List String)) := none

/-- Embedding of `WebSocketClient::parseOrderbookData`
(`src/src/data/websocket_client.cpp`, lines 191-231): a missing required
field throws `Missing required fields in data`; malformed numeric strings
abort via `std::stod`. -/
def parseOrderbookData (m : RawMessage) : Except String OrderbookData :=
  if m.timestamp.isNone || m.exchange.isNone || m.symbol.isNone ||
      m.asks.isNone || m.bids.isNone then
    Except.error "Missing required fields in data"
  else
    match parseLevels (m.asks.getD []) with
    | Except.error msg => Except.error msg
    | Except.ok asksQ =>
      match parseLevels (m.bids.getD []) with
      | Except.error msg => Except.error msg
      | Except.ok bidsQ =>
        Except.ok { timestamp := m.timestamp.getD "",
                    exchange := m.exchange.getD "",
                    symbol := m.symbol.getD "",
                    asks := asksQ, bids := bidsQ }

/-- Embedding of `WebSocketClient::processMessage`
(`src/src/data/websocket_client.cpp`, lines 178-189): the orderbook
callback receives `some` data on success; any parse exception is caught,
reported, and the message is dropped (`none`). -/
def processMessage (m : RawMessage) : Option OrderbookData :=
  match parseOrderbookData m with
  | Except.ok d => some d
  | Except.error _ => none

/-- One iteration of the read loop of `WebSocketClient::connect`
(`src/src/data/websocket_client.cpp`, lines 143-160) after a message was
received: the message is processed and the connection state is left
untouched, so the loop continues. -/
def readMessageStep (connected : Bool) (m : RawMessage) :
    Bool × Option OrderbookData :=
  (connected, processMessage m)

lemma parseLevels_error_of_malformed (l : List (List String))
    (e : List String) (hmem : e ∈ l)
    (hbad : ∃ p s rest, e = p :: s :: rest ∧
      (stodParse p = none ∨ stodParse s = none)) :
    ∃ msg, parseLevels l = Except.error msg := by
  obtain ⟨p, s, rest, he, hps⟩ := hbad
  have hlevel : parseLevel e = Except.error "stod: no conversion" := by
    subst he
    rcases hps with hp | hs
    · simp [parseLevel, hp]
    · rw [parseLevel, hs]
      cases stodParse p <;> rfl
  induction l with
  | nil => cases hmem
  | cons x xs ih =>
    rcases List.mem_cons.mp hmem with hx | hxs
    · subst hx
      exact ⟨"stod: no conversion", by rw [parseLevels, hlevel]⟩
    · rw [parseLevels]
      cases hpl : parseLevel x with
      | error msg => exact ⟨msg, rfl⟩
      | ok lv =>
        obtain ⟨msg, hmsg⟩ := ih hxs
        rw [hmsg]
        exact ⟨msg, rfl⟩

lemma parseOrderbookData_error_of_bad (m : RawMessage)
    (hbad : (m.timestamp = none ∨ m.exchange = none ∨ m.symbol = none ∨
        m.asks = none ∨ m.bids = none) ∨
      (∃ lvls e, (m.asks = some lvls ∨ m.bids = some lvls) ∧ e ∈ lvls ∧
        ∃ p s rest, e = p :: s :: rest ∧
          (stodParse p = none ∨ stodParse s = none))) :
    ∃ msg, parseOrderbookData m = Except.error msg := by
  by_cases hmiss : m.timestamp.isNone || m.exchange.isNone ||
      m.symbol.isNone || m.asks.isNone || m.bids.isNone
  · exact ⟨"Missing required fields in data", by rw [parseOrderbookData, if_pos hmiss]⟩
  · rcases hbad with hnone | ⟨lvls, e, hside, hmem, hbadentry⟩
    · exfalso
      apply hmiss
      simp only [Bool.or_eq_true, Option.isNone_iff_eq_none]
      tauto
    · rw [parseOrderbookData, if_neg hmiss]
      rcases hside with hasks | hbids
      · obtain ⟨msg, hmsg⟩ :=
          parseLevels_error_of_malformed lvls e hmem hbadentry
        rw [hasks]
        simp only [Option.getD_some]
        rw [hmsg]
        exact ⟨msg, rfl⟩
      · cases hpa : parseLevels (m.asks.getD []) with
        | error msg => exact ⟨msg, rfl⟩
        | ok asksQ =>
          obtain ⟨msg, hmsg⟩ :=
            parseLevels_error_of_malformed lvls e hmem hbadentry
          rw [hbids]
          simp only [Option.getD_some]
          rw [hmsg]
          exact ⟨msg, rfl⟩

/-- C7: a message missing a required field (timestamp, exchange, symbol,
asks, bids) or containing a malformed numeric string in a used level entry
is reported as a parse error and dropped: the orderbook callback gets no
data for it and the connection state is unchanged, so processing
continues. -/
theorem parse_failure_drops_message (connected : Bool) (m : RawMessage)
    (hbad : (m.timestamp = none ∨ m.exchange = none ∨ m.symbol = none ∨
        m.asks = none ∨ m.bids = none) ∨
      (∃ lvls e, (m.asks = some lvls ∨ m.bids = some lvls) ∧ e ∈ lvls ∧
        ∃ p s rest, e = p :: s :: rest ∧
          (stodParse p = none ∨ stodParse s = none))) :
    readMessageStep connected m = (connected, none) := by
  obtain ⟨msg, hmsg⟩ := parseOrderbookData_error_of_bad m hbad
  rw [readMessageStep, processMessage, hmsg]

/-- Concrete inbound message with every required field except
`timestamp`, used to exercise the missing-field branch of the parser. -/
def noTimestampMessage : RawMessage :=
  { exchange := some "OKX", symbol := some "BTC-USDT",
    asks := some [], bids := some [] }

/-- Witness for C7 at a concrete input: a message with all fields except
`timestamp` is dropped without touching the connection state. -/
theorem parse_failure_drops_message_witness :
    (noTimestampMessage.timestamp = none ∨
      noTimestampMessage.exchange = none ∨
      noTimestampMessage.symbol = none ∨
      noTimestampMessage.asks = none ∨
      noTimestampMessage.bids = none) ∧
      readMessageStep true noTimestampMessage = (true, none) :=
  ⟨Or.inl rfl,
    parse_failure_drops_message true noTimestampMessage
      (Or.inl (Or.inl rfl))⟩

/-- Extraction of the mid-price series from the history inside
`OrderbookProcessor::calculateVolatility`
(`src/src/data/orderbook_processor.cpp`, lines 104-115): snapshots with an
empty bid or ask side are skipped; the others contribute
(best ask + best bid)/2. -/
def validMidprices (history : List OrderbookData) : List ℚ :=
  history.filterMap (fun ob =>
    match ob.asks, ob.bids with
    | a :: _, b :: _ => some ((a.1 + b.1) / 2)
    | _, _ => none)

/-- Simple returns of consecutive mid-prices
(`src/src/data/orderbook_processor.cpp`, lines 121-128):
`(m[i] - m[i-1]) / m[i-1]`. -/
def simpleReturns : List ℚ → List ℚ
  | a :: b :: rest => (b - a) / a :: simpleReturns (b :: rest)
  | _ => []

/-- Arithmetic mean of a list of rationals
(`std::accumulate(...) / returns.size()` in the volatility code). -/
def listMean (l : List ℚ) : ℚ := l.sum / l.length

/-- Accumulated squared deviations from the mean (the `sqSum` accumulator
of `OrderbookProcessor::calculateVolatility`). -/
def squaredDeviationSum (l : List ℚ) : ℚ :=
  (l.map (fun x => (x - listMean l) * (x - listMean l))).sum

/-- Embedding of `OrderbookProcessor::calculateVolatility`
(`src/src/data/orderbook_processor.cpp`, lines 97-141): 0 with fewer than
2 history entries or fewer than 2 valid mid-prices, otherwise the square
root of `variance = sqSum / returns.size()`. -/
noncomputable def calculateVolatility (history : List OrderbookData) : ℝ :=
  if history.length < 2 then 0
  else if (validMidprices history).length < 2 then 0
  else
    Real.sqrt
      ((squaredDeviationSum (simpleReturns (validMidprices history)) /
        (simpleReturns (validMidprices history)).length : ℚ) : ℝ)

/-- Statement of the C3 claim's "sample standard deviation of the simple
returns" in the spec's words: the Bessel-corrected estimator with divisor
(number of returns - 1), and 0 with fewer than 2 returns.  Written for
comparison with `calculateVolatility`, which divides by the number of
returns instead. -/
noncomputable def sampleStdDevOfReturns (history : List OrderbookData) : ℝ :=
  if (simpleReturns (validMidprices history)).length < 2 then 0
  else
    Real.sqrt
      ((squaredDeviationSum (simpleReturns (validMidprices history)) /
        ((simpleReturns (validMidprices history)).length - 1 : ℕ) : ℚ) : ℝ)

/-- Population standard deviation (divisor = number of returns) of the
simple returns of the valid mid-price series; with no returns the junk
value 0/0 = 0 makes it 0.  This is the estimator the code actually
computes. -/
noncomputable def populationStdDevOfReturns (history : List OrderbookData) : ℝ :=
  Real.sqrt
    ((squaredDeviationSum (simpleReturns (validMidprices history)) /
      (simpleReturns (validMidprices history)).length : ℚ) : ℝ)

/-- Snapshot with a one-level book on both sides at price `q`, so its
mid-price is `q`. -/
def midSnap (q : ℚ) : OrderbookData :=
  { asks := [(q, 1)], bids := [(q, 1)] }

/-- History of three valid snapshots with mid-prices 1, 2, 1: returns are
[1, -1/2], population std dev 3/4, sample std dev sqrt(9/8). -/
def volHistory3 : List OrderbookData := [midSnap 1, midSnap 2, midSnap 1]

/-- History of two valid snapshots (one return). -/
def volHistory2 : List OrderbookData := [midSnap 1, midSnap 2]

lemma simpleReturns_short {mids : List ℚ} (h : mids.length < 2) :
    simpleReturns mids = [] := by
  cases mids with
  | nil => rfl
  | cons a t =>
    cases t with
    | nil => rfl
    | cons b t' => simp only [List.length_cons] at h; omega

lemma calculateVolatility_eq_population (history : List OrderbookData) :
    calculateVolatility history = populationStdDevOfReturns history := by
  unfold calculateVolatility populationStdDevOfReturns
  by_cases h1 : history.length < 2
  · rw [if_pos h1]
    have hm : (validMidprices history).length < 2 :=
      lt_of_le_of_lt (List.length_filterMap_le _ _) h1
    rw [simpleReturns_short hm]
    simp [squaredDeviationSum]
  · rw [if_neg h1]
    by_cases h2 : (validMidprices history).length < 2
    · rw [if_pos h2, simpleReturns_short h2]
      simp [squaredDeviationSum]
    · rw [if_neg h2]

lemma calculateVolatility_zero_of_short (history : List OrderbookData)
    (h : (validMidprices history).length < 3) :
    calculateVolatility history = 0 := by
  unfold calculateVolatility
  by_cases h1 : history.length < 2
  · rw [if_pos h1]
  · rw [if_neg h1]
    by_cases h2 : (validMidprices history).length < 2
    · rw [if_pos h2]
    · rw [if_neg h2]
      have hlen : (validMidprices history).length = 2 := by omega
      obtain ⟨a, b, hab⟩ := List.length_eq_two.mp hlen
      rw [hab]
      have hone : simpleReturns [a, b] = [(b - a) / a] := rfl
      rw [hone]
      have hsq : squaredDeviationSum [(b - a) / a] = 0 := by
        simp [squaredDeviationSum, listMean]
      rw [hsq]
      simp

lemma validMidprices_cons_valid {ob : OrderbookData} {a b : ℚ × ℚ}
    {as2 bs2 : List (ℚ × ℚ)} (ha : ob.asks = a :: as2) (hb : ob.bids = b :: bs2)
    (rest : List OrderbookData) :
    validMidprices (ob :: rest) = ((a.1 + b.1) / 2) :: validMidprices rest := by
  simp [validMidprices, List.filterMap_cons, ha, hb]

lemma validMidprices_cons_invalid {ob : OrderbookData}
    (h : ob.asks = [] ∨ ob.bids = []) (rest : List OrderbookData) :
    validMidprices (ob :: rest) = validMidprices rest := by
  rcases h with ha | hb
  · simp [validMidprices, List.filterMap_cons, ha]
  · cases ha2 : ob.asks with
    | nil => simp [validMidprices, List.filterMap_cons, ha2]
    | cons a as2 => simp [validMidprices, List.filterMap_cons, ha2, hb]

lemma validMidprices_filter_valid (history : List OrderbookData) :
    validMidprices
        (history.filter (fun ob => !ob.asks.isEmpty && !ob.bids.isEmpty)) =
      validMidprices history ∧
    (history.filter (fun ob => !ob.asks.isEmpty && !ob.bids.isEmpty)).length =
      (validMidprices history).length := by
  induction history with
  | nil => exact ⟨rfl, rfl⟩
  | cons ob rest ih =>
    by_cases hval : ob.asks = [] ∨ ob.bids = []
    · have hpred : (!ob.asks.isEmpty && !ob.bids.isEmpty) = false := by
        rcases hval with h | h <;> rw [h] <;> simp
      rw [List.filter_cons, hpred]
      simp only [Bool.false_eq_true, if_false]
      rw [validMidprices_cons_invalid hval]
      exact ih
    · push_neg at hval
      obtain ⟨ha, hb⟩ := hval
      obtain ⟨a, as2, ha2⟩ := List.exists_cons_of_ne_nil ha
      obtain ⟨b, bs2, hb2⟩ := List.exists_cons_of_ne_nil hb
      have hpred : (!ob.asks.isEmpty && !ob.bids.isEmpty) = true := by
        rw [ha2, hb2]
        simp
      rw [List.filter_cons, hpred]
      simp only [if_true]
      rw [validMidprices_cons_valid ha2 hb2,
        validMidprices_cons_valid ha2 hb2, ih.1]
      refine ⟨rfl, ?_⟩
      simp only [List.length_cons, ih.2]

/-- C3 counterexample: for the history with mid-prices 1, 2, 1 the code
returns sqrt((9/8)/2) = 3/4 (divisor = number of returns), while the
sample standard deviation of the two returns is sqrt((9/8)/1), which is
not 3/4.  So `calculateVolatility` is not the sample standard deviation
of the simple returns. -/
theorem calculateVolatility_not_sample_stddev :
    calculateVolatility volHistory3 = 3 / 4 ∧
      sampleStdDevOfReturns volHistory3 ≠ 3 / 4 := by
  have hnil : validMidprices [] = [] := rfl
  have hmids : validMidprices volHistory3 = [1, 2, 1] := by
    show validMidprices [midSnap 1, midSnap 2, midSnap 1] = [1, 2, 1]
    rw [validMidprices_cons_valid rfl rfl, validMidprices_cons_valid rfl rfl,
      validMidprices_cons_valid rfl rfl, hnil]
    norm_num
  have hrets : simpleReturns (validMidprices volHistory3) = [1, -(1 / 2)] := by
    rw [hmids]
    norm_num [simpleReturns]
  have hsq : squaredDeviationSum (simpleReturns (validMidprices volHistory3)) = 9 / 8 := by
    rw [hrets]
    norm_num [squaredDeviationSum, listMean]
  have hlen3 : volHistory3.length = 3 := rfl
  have hretlen : (simpleReturns (validMidprices volHistory3)).length = 2 := by
    rw [hrets]
    rfl
  constructor
  · rw [calculateVolatility, if_neg (by rw [hlen3]; omega),
      if_neg (by rw [hmids]; simp), hsq, hretlen]
    have hcast : ((9 / 8 / ((2 : ℕ) : ℚ) : ℚ) : ℝ) = 9 / 16 := by
      push_cast
      norm_num
    rw [hcast, show (9 / 16 : ℝ) = (3 / 4) ^ 2 by norm_num,
      Real.sqrt_sq (by norm_num)]
  · rw [sampleStdDevOfReturns, if_neg (by rw [hretlen]; omega), hsq, hretlen]
    intro h
    have hcast : ((9 / 8 / (((2 : ℕ) - 1 : ℕ) : ℚ) : ℚ) : ℝ) = 9 / 8 := by
      norm_num
    rw [hcast] at h
    have h3 := Real.sq_sqrt (show (0 : ℝ) ≤ 9 / 8 by norm_num)
    rw [h] at h3
    norm_num at h3

/-- C3 (amended): `calculateVolatility` equals the population standard
deviation (divisor = number of returns, not the Bessel-corrected sample
standard deviation) of the simple returns of the mid-price series over
the valid-book snapshots; it is 0 whenever fewer than 3 valid-book
snapshots are present (fewer than 2 returns); and snapshots with an empty
side are skipped: the result is unchanged if they are removed from the
history. -/
theorem calculateVolatility_spec (history : List OrderbookData) :
    calculateVolatility history = populationStdDevOfReturns history ∧
      ((validMidprices history).length < 3 → calculateVolatility history = 0) ∧
      calculateVolatility history =
        calculateVolatility
          (history.filter (fun ob => !ob.asks.isEmpty && !ob.bids.isEmpty)) := by
  obtain ⟨hmids_eq, hlen_eq⟩ := validMidprices_filter_valid history
  refine ⟨calculateVolatility_eq_population history,
    calculateVolatility_zero_of_short history, ?_⟩
  by_cases hm2 : (validMidprices history).length < 2
  · rw [calculateVolatility_zero_of_short history (by omega),
      calculateVolatility_zero_of_short _ (by rw [hmids_eq]; omega)]
  · have hh2 : ¬ history.length < 2 := by
      have := List.length_filterMap_le (fun ob =>
        match ob.asks, ob.bids with
        | a :: _, b :: _ => some ((a.1 + b.1) / 2)
        | _, _ => none) history
      have hle : (validMidprices history).length ≤ history.length := this
      omega
    have hf2 : ¬ (history.filter
        (fun ob => !ob.asks.isEmpty && !ob.bids.isEmpty)).length < 2 := by
      rw [hlen_eq]
      omega
    have hfm2 : ¬ (validMidprices (history.filter
        (fun ob => !ob.asks.isEmpty && !ob.bids.isEmpty))).length < 2 := by
      rw [hmids_eq]
      omega
    unfold calculateVolatility
    rw [if_neg hh2, if_neg hm2, if_neg hf2, if_neg hfm2, hmids_eq]

/-- Witness for C3 (amended) at a concrete input: a history of two valid
snapshots has fewer than 3 valid mid-prices and volatility exactly 0. -/
lemma validMidprices_volHistory2_short : (validMidprices volHistory2).length < 3 := by
  show (validMidprices [midSnap 1, midSnap 2]).length < 3
  rw [validMidprices_cons_valid rfl rfl, validMidprices_cons_valid rfl rfl,
    show validMidprices [] = [] from rfl]
  simp

theorem calculateVolatility_spec_witness :
    (validMidprices volHistory2).length < 3 ∧
      calculateVolatility volHistory2 = 0 :=
  ⟨validMidprices_volHistory2_short,
    (calculateVolatility_spec volHistory2).2.1 validMidprices_volHistory2_short⟩

/-- Risk adjustment factor of `MarketImpactModel::calculateOptimalExecution`
(`src/unnamed/part_001`, lines 58-59):
`riskAversion * volatility^2 * timeHorizon / (numSteps - 1)`. -/
noncomputable def riskFactor (p : AlmgrenChrissParams) (numSteps : ℕ) : ℝ :=
  p.riskAversion * p.volatility ^ 2 * p.timeHorizon / ((numSteps : ℝ) - 1)

/-- Hyperbolic weight `exp(-riskFactor * i/(numSteps-1))` of step `i`
(`src/unnamed/part_001`, lines 66-69). -/
noncomputable def acWeight (r : ℝ) (numSteps i : ℕ) : ℝ :=
  Real.exp (-(r * ((i : ℝ) / ((numSteps : ℝ) - 1))))

/-- Normalizing total weight of all steps
(`src/unnamed/part_001`, lines 72-75). -/
noncomputable def acTotalWeight (r : ℝ) (numSteps : ℕ) : ℝ :=
  ((List.range numSteps).map (acWeight r numSteps)).sum

/-- Remaining size after the first `i` steps of the schedule loop
(`src/unnamed/part_001`, lines 78-84): each step trades
`min((weight/totalWeight) * orderSize, remaining)`. -/
noncomputable def acRemaining (orderSize r W : ℝ) (numSteps : ℕ) : ℕ → ℝ
  | 0 => orderSize
  | i + 1 =>
    acRemaining orderSize r W numSteps i -
      min (acWeight r numSteps i / W * orderSize)
        (acRemaining orderSize r W numSteps i)

/-- Trade size of step `i` of the schedule loop. -/
noncomputable def acSlice (orderSize r W : ℝ) (numSteps i : ℕ) : ℝ :=
  min (acWeight r numSteps i / W * orderSize)
    (acRemaining orderSize r W numSteps i)

/-- Schedule produced by the loop, before the residual adjustment. -/
noncomputable def acSchedule (orderSize : ℝ) (p : AlmgrenChrissParams) (n : ℕ) :
    List ℝ :=
  (List.range n).map
    (acSlice orderSize (riskFactor p n) (acTotalWeight (riskFactor p n) n) n)

/-- Remaining size after the whole loop. -/
noncomputable def acFinalRemaining (orderSize : ℝ) (p : AlmgrenChrissParams)
    (n : ℕ) : ℝ :=
  acRemaining orderSize (riskFactor p n) (acTotalWeight (riskFactor p n) n) n n

/-- Behaviour of `executionSchedule.back() += remainingSize`: add `x` to
the last element. -/
def addToLast : List ℝ → ℝ → List ℝ
  | [], _ => []
  | [a], x => [a + x]
  | a :: b :: rest, x => a :: addToLast (b :: rest) x

/-- Embedding of `MarketImpactModel::calculateOptimalExecution`
(`src/unnamed/part_001`, lines 36-93): `numSteps` is clamped to at least
1; a non-positive order size or an empty book side yields the all-zero
schedule; otherwise the loop distributes the order by normalized
hyperbolic weights, never exceeding the remaining size, and any positive
remaining size is added to the last slice. -/
noncomputable def calculateOptimalExecution (p : AlmgrenChrissParams)
    (orderSize : ℝ) (orderSide : Bool) (stats : OrderbookStats)
    (numSteps : ℤ) : List ℝ :=
  if orderSize ≤ 0 ∨ stats.total_ask_size ≤ 0 ∨ stats.total_bid_size ≤ 0 then
    List.replicate (max 1 numSteps).toNat 0
  else if 0 < acFinalRemaining orderSize p (max 1 numSteps).toNat then
    addToLast (acSchedule orderSize p (max 1 numSteps).toNat)
      (acFinalRemaining orderSize p (max 1 numSteps).toNat)
  else acSchedule orderSize p (max 1 numSteps).toNat

lemma acRemaining_succ (s r W : ℝ) (n i : ℕ) :
    acRemaining s r W n (i + 1) =
      acRemaining s r W n i - acSlice s r W n i := rfl

lemma acRemaining_nonneg (s r W : ℝ) (n : ℕ) (hs : 0 ≤ s) :
    ∀ i, 0 ≤ acRemaining s r W n i := by
  intro i
  induction i with
  | zero => exact hs
  | succ i ih =>
    rw [acRemaining_succ, acSlice]
    have hmin : min (acWeight r n i / W * s) (acRemaining s r W n i) ≤
        acRemaining s r W n i := min_le_right _ _
    linarith

lemma sum_range_acSlice (s r W : ℝ) (n : ℕ) :
    ∀ m : ℕ, ((List.range m).map (acSlice s r W n)).sum =
      s - acRemaining s r W n m := by
  intro m
  induction m with
  | zero => simp [acRemaining]
  | succ m ih =>
    rw [List.range_succ, List.map_append, List.sum_append]
    simp only [List.map_cons, List.map_nil, List.sum_cons, List.sum_nil]
    rw [ih, acRemaining_succ]
    ring

lemma addToLast_sum (x : ℝ) (l : List ℝ) (hl : l ≠ []) :
    (addToLast l x).sum = l.sum + x := by
  induction l with
  | nil => exact absurd rfl hl
  | cons a rest ih =>
    cases rest with
    | nil => simp [addToLast]
    | cons b rest2 =>
      rw [show addToLast (a :: b :: rest2) x = a :: addToLast (b :: rest2) x
        from rfl]
      simp only [List.sum_cons]
      rw [ih (by simp)]
      simp only [List.sum_cons]
      ring

/-- Intended summation property of `calculateOptimalExecution` in the
exact-real idealization, where division by zero collapses to 0 rather
than to an IEEE infinity or NaN: each slice is capped by the remaining
size, the slices telescope to `orderSize - remainder`, and the residual
branch absorbs the remainder into the last slice.  At `numSteps = 1` this
idealization departs from the IEEE semantics of the C++ doubles; the
theorem `optimalExecution_ieee_nan_at_one_step` below evaluates that
error path faithfully. -/
theorem optimalExecution_sums_to_orderSize
    (p : AlmgrenChrissParams) (orderSize : ℝ) (orderSide : Bool)
    (stats : OrderbookStats) (numSteps : ℤ)
    (hsize : 0 < orderSize) (hask : 0 < stats.total_ask_size)
    (hbid : 0 < stats.total_bid_size) (hsteps : 1 ≤ numSteps) :
    (calculateOptimalExecution p orderSize orderSide stats numSteps).sum =
      orderSize := by
  have hguard : ¬ (orderSize ≤ 0 ∨ stats.total_ask_size ≤ 0 ∨
      stats.total_bid_size ≤ 0) := by
    intro h
    rcases h with h | h | h <;> linarith
  have hn1 : 1 ≤ (max 1 numSteps).toNat := by
    have h1 : (1 : ℤ) ≤ max 1 numSteps := le_max_left _ _
    omega
  have hsum := sum_range_acSlice orderSize
    (riskFactor p (max 1 numSteps).toNat)
    (acTotalWeight (riskFactor p (max 1 numSteps).toNat) (max 1 numSteps).toNat)
    (max 1 numSteps).toNat (max 1 numSteps).toNat
  have hrem_nonneg : 0 ≤ acFinalRemaining orderSize p (max 1 numSteps).toNat :=
    acRemaining_nonneg _ _ _ _ (le_of_lt hsize) _
  have hsched_ne : acSchedule orderSize p (max 1 numSteps).toNat ≠ [] := by
    intro h
    have hlen := congrArg List.length h
    simp only [acSchedule, List.length_map, List.length_range,
      List.length_nil] at hlen
    omega
  rw [calculateOptimalExecution, if_neg hguard]
  by_cases hpos : 0 < acFinalRemaining orderSize p (max 1 numSteps).toNat
  · rw [if_pos hpos, addToLast_sum _ _ hsched_ne]
    rw [acSchedule] at *
    rw [hsum]
    rw [acFinalRemaining]
    ring
  · rw [if_neg hpos]
    have hzero : acFinalRemaining orderSize p (max 1 numSteps).toNat = 0 :=
      le_antisymm (not_lt.mp hpos) hrem_nonneg
    rw [acFinalRemaining] at hzero
    rw [acSchedule, hsum, hzero, sub_zero]

/-- Instantiation of the idealized summation property at a concrete
input: order size 1, unit depth on both sides, 2 steps. -/
theorem optimalExecution_sums_to_orderSize_witness :
    ((0 : ℝ) < 1 ∧ (0 : ℝ) < 1 ∧ (1 : ℤ) ≤ 2) ∧
      (calculateOptimalExecution {} 1 true
        { total_ask_size := 1, total_bid_size := 1 } 2).sum = 1 :=
  ⟨⟨by norm_num, by norm_num, by decide⟩,
    optimalExecution_sums_to_orderSize {} 1 true
      { total_ask_size := 1, total_bid_size := 1 } 2
      (by norm_num) (by norm_num) (by norm_num) (by decide)⟩

/-- Embedding of `MarketImpactModel::calculatePermanentImpact`
(`src/unnamed/part_001`, lines 95-125): the base factor is scaled by
`(1 + min(1, orderSize/depth))` when the combined depth is positive, then
multiplied by order size and the live measured volatility. -/
noncomputable def calculatePermanentImpact (p : AlmgrenChrissParams)
    (orderSize : ℝ) (stats : OrderbookStats) : ℝ :=
  (if 0 < stats.total_ask_size + stats.total_bid_size then
    p.permanentImpactFactor *
      (1 + min 1 (orderSize / (stats.total_ask_size + stats.total_bid_size)))
  else p.permanentImpactFactor) * orderSize * stats.price_volatility

/-- Embedding of `MarketImpactModel::calculateTemporaryImpact`
(`src/unnamed/part_001`, lines 127-157): square-root law in order size
(`std::pow(orderSize, 0.5)` becomes `Real.sqrt`), scaled by a liquidity
factor and an imbalance factor, multiplied by the live measured
volatility. -/
noncomputable def calculateTemporaryImpact (p : AlmgrenChrissParams)
    (orderSize : ℝ) (stats : OrderbookStats) : ℝ :=
  p.temporaryImpactFactor * stats.price_volatility * Real.sqrt orderSize *
    (if 0 < stats.midprice ∧ 0 < stats.spread then
      1 + stats.spread / stats.midprice
    else 1) *
    (if 0 < stats.total_ask_size ∧ 0 < stats.total_bid_size then
      max 1 |Real.log stats.order_imbalance|
    else 1)

/-- Embedding of `MarketImpactModel::calculateMarketImpact`
(`src/unnamed/part_001`, lines 21-34): permanent plus temporary impact,
signed positive for buys and negative for sells. -/
noncomputable def calculateMarketImpact (p : AlmgrenChrissParams)
    (orderSize : ℝ) (orderSide : Bool) (stats : OrderbookStats) : ℝ :=
  (calculatePermanentImpact p orderSize stats +
    calculateTemporaryImpact p orderSize stats) *
    (if orderSide then 1 else -1)

/-- Embedding of `TransactionCostModel::predictMakerProportion`
(`src/unnamed/part_002`, lines 76-104): exponential decay in relative
order size and in volatility, clamped to [0, 0.1]. -/
noncomputable def predictMakerProportion (orderSize : ℝ) (orderSide : Bool)
    (stats : OrderbookStats) : ℝ :=
  stdClamp
    (Real.exp (-5 *
        (if orderSide then
          (if 0 < stats.total_ask_size then orderSize / stats.total_ask_size
           else 0)
         else
          (if 0 < stats.total_bid_size then orderSize / stats.total_bid_size
           else 0))) *
      Real.exp (-2 * stats.price_volatility)) 0 0.1

/-- Embedding of `TransactionCostModel::calculateTotalCost`
(`src/unnamed/part_002`, lines 106-129): the tuple
(slippage, marketImpact, fees, slippage + marketImpact + fees), with fees
computed at the mid-price and the predicted maker proportion. -/
noncomputable def calculateTotalCost (p : AlmgrenChrissParams) (fm : FeeModel)
    (orderSize : ℝ) (orderSide : Bool) (stats : OrderbookStats) :
    ℝ × ℝ × ℝ × ℝ :=
  (calculateSlippage orderSize orderSide stats,
   calculateMarketImpact p orderSize orderSide stats,
   calculateFees fm orderSize stats.midprice
     (predictMakerProportion orderSize orderSide stats),
   calculateSlippage orderSize orderSide stats +
     calculateMarketImpact p orderSize orderSide stats +
     calculateFees fm orderSize stats.midprice
       (predictMakerProportion orderSize orderSide stats))

/-- Output metrics of the simulator
(struct `SimulatorOutput` in `src/unnamed/part_003`), every field
defaulting to 0. -/
structure SimulatorOutput where
  expectedSlippage : ℝ := 0
  expectedFees : ℝ := 0
  expectedMarketImpact : ℝ := 0
  netCost : ℝ := 0
  makerProportion : ℝ := 0
  internalLatency : ℝ := 0
  midprice : ℝ := 0
  spread : ℝ := 0
  marketVolatility : ℝ := 0

/-- USD notional converted to base units at the mid-price, 0 when the
mid-price is not positive (`src/src/models/simulator.cpp`, lines
156-159). -/
noncomputable def baseQuantityOf (params : SimulatorParams)
    (stats : OrderbookStats) : ℝ :=
  if 0 < stats.midprice then params.quantity / stats.midprice else 0

/-- Embedding of `Simulator::updateSimulation`
(`src/src/models/simulator.cpp`, lines 139-185): the output value that is
stored as latest and handed to the output callback.  Its
`internalLatency` field keeps the default 0: `updateSimulation` never
writes it. -/
noncomputable def updateSimulation (p : AlmgrenChrissParams) (fm : FeeModel)
    (params : SimulatorParams) (stats : OrderbookStats) : SimulatorOutput :=
  { midprice := stats.midprice,
    spread := stats.spread,
    marketVolatility := stats.price_volatility,
    expectedSlippage :=
      (calculateTotalCost p fm (baseQuantityOf params stats) true stats).1,
    expectedMarketImpact :=
      (calculateTotalCost p fm (baseQuantityOf params stats) true stats).2.1,
    expectedFees :=
      (calculateTotalCost p fm (baseQuantityOf params stats) true stats).2.2.1,
    netCost :=
      (calculateTotalCost p fm (baseQuantityOf params stats) true stats).2.2.2,
    makerProportion :=
      predictMakerProportion (baseQuantityOf params stats) true stats,
    internalLatency := 0 }

/-- Embedding of `Simulator::onOrderbookStats`
(`src/src/models/simulator.cpp`, lines 119-137): `none` when the
simulator is not running; otherwise the pair of the output passed to the
callback (via `updateSimulation`) and the finally stored latest output,
whose `internalLatency` is overwritten with the measured `latency` after
the callback has already run. -/
noncomputable def onOrderbookStats (isRunning : Bool) (latency : ℝ)
    (p : AlmgrenChrissParams) (fm : FeeModel) (params : SimulatorParams)
    (stats : OrderbookStats) : Option (SimulatorOutput × SimulatorOutput) :=
  if isRunning then
    some (updateSimulation p fm params stats,
      { updateSimulation p fm params stats with internalLatency := latency })
  else none

/-- C6 counterexample: with measured latency 7, the output passed to the
callback carries `internalLatency = 0` (its default), not 7, and the
finally stored latest output differs from the callback value.  So the
callback value does not include the measured latency, and the stored
value is not the same value. -/
theorem simulator_callback_lacks_latency :
    onOrderbookStats true 7 {} {} {} {} =
        some (updateSimulation {} {} {} {},
          { updateSimulation {} {} {} {} with internalLatency := 7 }) ∧
      (updateSimulation {} {} {} {}).internalLatency = 0 ∧
      (7 : ℝ) ≠ 0 ∧
      ({ updateSimulation {} {} {} {} with internalLatency := 7 } :
          SimulatorOutput) ≠ updateSimulation {} {} {} {} := by
  refine ⟨rfl, rfl, by norm_num, ?_⟩
  intro h
  have h7 := congrArg SimulatorOutput.internalLatency h
  simp only [updateSimulation] at h7
  norm_num at h7

/-- C6 (amended): for every statistics update processed while running,
the callback receives the `updateSimulation` output whose
`internalLatency` is still the default 0; the measured latency is then
written only into the stored latest output, which equals the callback
value except in `internalLatency`; while stopped the update is
discarded. -/
theorem simulator_latency_in_stored_output_only (latency : ℝ)
    (p : AlmgrenChrissParams) (fm : FeeModel) (params : SimulatorParams)
    (stats : OrderbookStats) :
    onOrderbookStats true latency p fm params stats =
        some (updateSimulation p fm params stats,
          { updateSimulation p fm params stats with
              internalLatency := latency }) ∧
      (updateSimulation p fm params stats).internalLatency = 0 ∧
      onOrderbookStats false latency p fm params stats = none :=
  ⟨rfl, rfl, rfl⟩

/-- Value of a C++ `double` as far as the execution-schedule code can
observe it: a finite real, a signed infinity, or NaN.  Rounding and
overflow of finite arithmetic are not modelled (finite results stay
exact reals), and zero is treated as +0; NaN and infinity propagation
follow IEEE 754. -/
inductive FVal where
  | nan : FVal
  | inf : Bool → FVal
  | fin : ℝ → FVal

open FVal

/-- IEEE negation. -/
noncomputable def fneg : FVal → FVal
  | nan => nan
  | inf s => inf (!s)
  | fin x => fin (-x)

/-- IEEE addition: NaN propagates, opposite infinities give NaN. -/
noncomputable def fadd : FVal → FVal → FVal
  | nan, _ => nan
  | _, nan => nan
  | inf s, inf t => if s = t then inf s else nan
  | inf s, fin _ => inf s
  | fin _, inf t => inf t
  | fin a, fin b => fin (a + b)

/-- IEEE subtraction, as addition of the negation. -/
noncomputable def fsub (a b : FVal) : FVal := fadd a (fneg b)

/-- IEEE multiplication: NaN propagates, infinity times zero is NaN. -/
noncomputable def fmul : FVal → FVal → FVal
  | nan, _ => nan
  | _, nan => nan
  | inf s, inf t => if s = t then inf true else inf false
  | inf s, fin b => if b = 0 then nan else if 0 < b then inf s else inf (!s)
  | fin a, inf t => if a = 0 then nan else if 0 < a then inf t else inf (!t)
  | fin a, fin b => fin (a * b)

/-- IEEE division: NaN propagates, inf/inf and 0/0 are NaN, a nonzero
finite value over (+)0 is a signed infinity, a finite value over an
infinity is 0. -/
noncomputable def fdiv : FVal → FVal → FVal
  | nan, _ => nan
  | _, nan => nan
  | inf _, inf _ => nan
  | inf s, fin b => if b = 0 then inf s else if 0 < b then inf s else inf (!s)
  | fin _, inf _ => fin 0
  | fin a, fin b =>
      if b = 0 then (if a = 0 then nan else if 0 < a then inf true else inf false)
      else fin (a / b)

/-- `std::exp`: NaN propagates, exp(+inf) = +inf, exp(-inf) = 0. -/
noncomputable def fexp : FVal → FVal
  | nan => nan
  | inf true => inf true
  | inf false => fin 0
  | fin x => fin (Real.exp x)

/-- `std::pow(x, 2.0)`: NaN propagates, both infinities square to
+inf. -/
noncomputable def fsq : FVal → FVal
  | nan => nan
  | inf _ => inf true
  | fin x => fin (x ^ 2)

/-- IEEE `<`: false whenever either operand is NaN. -/
noncomputable def flt : FVal → FVal → Bool
  | nan, _ => false
  | _, nan => false
  | inf s, inf t => !s && t
  | inf s, fin _ => !s
  | fin _, inf t => t
  | fin a, fin b => if a < b then true else false

/-- IEEE `<=`: false whenever either operand is NaN. -/
noncomputable def fle : FVal → FVal → Bool
  | nan, _ => false
  | _, nan => false
  | inf s, inf t => !s || t
  | inf s, fin _ => !s
  | fin _, inf t => t
  | fin a, fin b => if a ≤ b then true else false

/-- `std::min(a, b) = (b < a) ? b : a`, which returns the first argument
when either operand is NaN. -/
noncomputable def fstdmin (a b : FVal) : FVal := if flt b a then b else a

/-- Parameters of the impact model as doubles (struct
`AlmgrenChrissParams` in `models/market_impact.h`). -/
structure FPAlmgrenChrissParams where
  permanentImpactFactor : FVal := fin 0.1
  temporaryImpactFactor : FVal := fin 0.1
  volatility : FVal := fin 0
  timeHorizon : FVal := fin 1
  riskAversion : FVal := fin 1

/-- Default-constructed parameters (the defaults of
`AlmgrenChrissParams`). -/
noncomputable def fpDefaultParams : FPAlmgrenChrissParams := {}

/-- `riskFactor` of `MarketImpactModel::calculateOptimalExecution`
(`src/unnamed/part_001`, lines 58-59) in double semantics:
`riskAversion * pow(volatility, 2.0) * timeHorizon / (numSteps - 1)`. -/
noncomputable def fpRiskFactor (p : FPAlmgrenChrissParams) (numSteps : ℕ) : FVal :=
  fdiv (fmul (fmul p.riskAversion (fsq p.volatility)) p.timeHorizon)
    (fin ((numSteps : ℝ) - 1))

/-- Step weight `exp(-riskFactor * i/(numSteps-1))` in double semantics
(`src/unnamed/part_001`, lines 66-69). -/
noncomputable def fpWeight (r : FVal) (numSteps i : ℕ) : FVal :=
  fexp (fneg (fmul r (fdiv (fin (i : ℝ)) (fin ((numSteps : ℝ) - 1)))))

/-- Accumulated `totalWeight` (`src/unnamed/part_001`, lines 72-75). -/
noncomputable def fpTotalWeight (r : FVal) (numSteps : ℕ) : FVal :=
  ((List.range numSteps).map (fpWeight r numSteps)).foldl fadd (fin 0)

/-- Remaining size after the first `i` loop iterations in double
semantics (`src/unnamed/part_001`, lines 78-84). -/
noncomputable def fpRemaining (orderSize r W : FVal) (numSteps : ℕ) : ℕ → FVal
  | 0 => orderSize
  | i + 1 =>
    fsub (fpRemaining orderSize r W numSteps i)
      (fstdmin (fmul (fdiv (fpWeight r numSteps i) W) orderSize)
        (fpRemaining orderSize r W numSteps i))

/-- Trade size of loop iteration `i` in double semantics. -/
noncomputable def fpSlice (orderSize r W : FVal) (numSteps i : ℕ) : FVal :=
  fstdmin (fmul (fdiv (fpWeight r numSteps i) W) orderSize)
    (fpRemaining orderSize r W numSteps i)

/-- `executionSchedule.back() += remainingSize` in double semantics. -/
noncomputable def fpAddToLast : List FVal → FVal → List FVal
  | [], _ => []
  | [a], x => [fadd a x]
  | a :: b :: rest, x => a :: fpAddToLast (b :: rest) x

/-- Embedding of `MarketImpactModel::calculateOptimalExecution`
(`src/unnamed/part_001`, lines 36-93) in IEEE double semantics:
identical in structure to `calculateOptimalExecution`, but every
arithmetic operation and comparison follows `FVal`, so the divisions by
`numSteps - 1` behave as the C++ does at `numSteps = 1`.  Only the two
depth fields of the stats are taken, the rest being unused by this
function. -/
noncomputable def fpCalculateOptimalExecution (p : FPAlmgrenChrissParams)
    (orderSize : FVal) (orderSide : Bool) (totalAskSize totalBidSize : FVal)
    (numSteps : ℤ) : List FVal :=
  if fle orderSize (fin 0) || fle totalAskSize (fin 0) ||
      fle totalBidSize (fin 0) then
    List.replicate (max 1 numSteps).toNat (fin 0)
  else if flt (fin 0)
      (fpRemaining orderSize (fpRiskFactor p (max 1 numSteps).toNat)
        (fpTotalWeight (fpRiskFactor p (max 1 numSteps).toNat)
          (max 1 numSteps).toNat)
        (max 1 numSteps).toNat (max 1 numSteps).toNat) then
    fpAddToLast
      ((List.range (max 1 numSteps).toNat).map
        (fpSlice orderSize (fpRiskFactor p (max 1 numSteps).toNat)
          (fpTotalWeight (fpRiskFactor p (max 1 numSteps).toNat)
            (max 1 numSteps).toNat)
          (max 1 numSteps).toNat))
      (fpRemaining orderSize (fpRiskFactor p (max 1 numSteps).toNat)
        (fpTotalWeight (fpRiskFactor p (max 1 numSteps).toNat)
          (max 1 numSteps).toNat)
        (max 1 numSteps).toNat (max 1 numSteps).toNat)
  else
    (List.range (max 1 numSteps).toNat).map
      (fpSlice orderSize (fpRiskFactor p (max 1 numSteps).toNat)
        (fpTotalWeight (fpRiskFactor p (max 1 numSteps).toNat)
          (max 1 numSteps).toNat)
        (max 1 numSteps).toNat)

/-- C1: the code fails the claim at `numSteps = 1`, an input the claim
covers.  Under IEEE double semantics both `riskFactor` and `timeStep`
divide by `numSteps - 1 = 0`, every weight is `exp(NaN) = NaN`,
`std::min` propagates the NaN, and the residual branch is skipped since
`NaN > 0` is false; the returned schedule at order size 1, unit depths
and default parameters is `[NaN]`, whose sum is NaN and not the order
size. -/
theorem optimalExecution_ieee_nan_at_one_step :
    fpCalculateOptimalExecution fpDefaultParams (fin 1) true (fin 1) (fin 1) 1 =
        [nan] ∧
      (fpCalculateOptimalExecution fpDefaultParams (fin 1) true (fin 1)
          (fin 1) 1).foldl fadd (fin 0) ≠ fin 1 := by
  have hrf : fpRiskFactor fpDefaultParams 1 = nan := by
    norm_num [fpRiskFactor, fpDefaultParams, fsq, fmul, fdiv]
  have hw : fpWeight nan 1 0 = nan := by
    norm_num [fpWeight, fdiv, fmul, fneg, fexp]
  have htw : fpTotalWeight nan 1 = nan := by
    norm_num [fpTotalWeight, List.range_succ, hw, fadd]
  have hrem : fpRemaining (fin 1) nan nan 1 1 = nan := by
    norm_num [fpRemaining, hw, fdiv, fmul, fstdmin, flt, fsub, fneg, fadd]
  have hslice : fpSlice (fin 1) nan nan 1 0 = nan := by
    norm_num [fpSlice, fpRemaining, hw, fdiv, fmul, fstdmin, flt]
  have hmain : fpCalculateOptimalExecution fpDefaultParams (fin 1) true
      (fin 1) (fin 1) 1 = [nan] := by
    rw [fpCalculateOptimalExecution]
    norm_num [fle, hrf, htw, hrem, hslice, flt, List.range_succ]
  refine ⟨hmain, ?_⟩
  rw [hmain]
  simp [fadd]
